import Mathlib

/-!
# Titan opportunity-scan-and-execution-gating pipeline: a shallow embedding

This file embeds the decision logic of the Titan repository in Lean 4 and
proves (or refutes) the specification's claims about it.  Embedded components:

* `core/chain_registry.py` — `ChainRegistry` (execution whitelist, RPC URL
  validation);
* `core/titan_commander_core.py` — `TitanCommander.optimize_loan_size`
  (liquidity-aware loan sizing guard);
* `ml/brain.py` — `ProfitEngine.calculate_enhanced_profit` and
  `OmniBrain._build_bridge_edges`;
* `core/execution_modes.py` — `PaperTradingSimulator`, `LiveMainnetExecutor`
  (pre-execution checks, execute_trade, record_execution_result) and
  `HybridExecutionManager`;
* `execution/execution_client.py` — `ExecutionManager.submit_trade`
  (bounded retry loop and statistics counters).

Modelling conventions:

* Python `Decimal` quantities are modelled with `ℚ`; raw token amounts with
  `ℕ`.  The loan-sizing guard's `int(pool_liquidity * 0.20)` runs in binary64
  floating point in the source, and is modelled bit-faithfully by integer
  arithmetic: `round53` performs IEEE-754 round-to-nearest (ties to even) to
  53 significant bits, applied to the liquidity (Python `float(int)`
  conversion) and to the product with `fl(0.2) = 3602879701896397 ·2⁻⁵⁴`.
* Fallible external ports (TVL lookup, HTTP transport) are modelled as
  `Option`/oracle inputs; a Python function that can raise is modelled with
  `Except String`.
* The process environment (`os.getenv`) is an explicit map argument; Redis
  is an optional explicit state (`none` = connection unavailable).
* Reason strings produced by the pre-execution checks are modelled as an
  inductive type carrying the same data the Python f-strings interpolate.
-/

namespace Titan

/-! ## ChainRegistry (`core/chain_registry.py`) -/

/-- The `ChainExecutionState` enum from `chain_registry.py`. -/
inductive ChainExecutionState where
  | ENABLED
  | CONFIGURED
  | DISABLED
deriving DecidableEq, Repr

/-- The keys of the `ChainRegistry.CHAIN_STATES` dict, in insertion order. -/
def CHAIN_STATES_keys : List ℕ := [137, 1, 42161]

/-- Model of `ChainRegistry.CHAIN_STATES.get(chain_id)`: Polygon (137) is `ENABLED`,
Ethereum (1) and Arbitrum (42161) are `CONFIGURED`, everything else is
absent from the dict (`None`). -/
def CHAIN_STATES (chain_id : ℕ) : Option ChainExecutionState :=
  if chain_id = 137 then some .ENABLED
  else if chain_id = 1 then some .CONFIGURED
  else if chain_id = 42161 then some .CONFIGURED
  else none

/-- Model of `ChainRegistry.is_execution_enabled`: `CHAIN_STATES.get(chain_id) == ENABLED`.
The method consults only the static `CHAIN_STATES` table; the mutable
`health_status` map plays no part, which is why health does not appear as an
argument here. -/
def is_execution_enabled (chain_id : ℕ) : Bool :=
  decide (CHAIN_STATES chain_id = some ChainExecutionState.ENABLED)

/-- Model of `ChainRegistry.is_configured`: state is `ENABLED` or `CONFIGURED`. -/
def is_configured (chain_id : ℕ) : Bool :=
  decide (CHAIN_STATES chain_id = some ChainExecutionState.ENABLED ∨
          CHAIN_STATES chain_id = some ChainExecutionState.CONFIGURED)

/-- Model of `ChainRegistry.get_enabled_chains`: filter of the `CHAIN_STATES` items. -/
def get_enabled_chains : List ℕ :=
  CHAIN_STATES_keys.filter (fun chain_id =>
    decide (CHAIN_STATES chain_id = some ChainExecutionState.ENABLED))

/-- The `rpc_env` entry of `ChainRegistry.CHAIN_METADATA.get(chain_id)`. -/
def rpc_env_var (chain_id : ℕ) : Option String :=
  if chain_id = 1 then some "RPC_ETHEREUM"
  else if chain_id = 137 then some "RPC_POLYGON"
  else if chain_id = 42161 then some "RPC_ARBITRUM"
  else none

/-- The process environment: `os.getenv` as a map from variable names to
values.  URLs are kept as `List Char` so that substring tests are plain list
operations. -/
def EnvMap : Type := String → Option (List Char)

/-- Boolean contiguous-substring test: `contains_sub needle hay` is true iff
`needle` occurs as a contiguous sublist of `hay`. -/
def contains_sub : List Char → List Char → Bool
  | needle, [] => needle.isEmpty
  | needle, c :: rest => needle.isPrefixOf (c :: rest) || contains_sub needle rest

/-- Python `needle in url` on strings. -/
def url_contains (needle : String) (url : List Char) : Bool :=
  contains_sub needle.data url

/-- Python `url.startswith(needle)`. -/
def url_starts_with (needle : String) (url : List Char) : Bool :=
  needle.data.isPrefixOf url

/-- Model of `ChainRegistry.get_rpc_url`: look the chain's `rpc_env` variable up in the
environment, then reject any value that contains `localhost`
(case-insensitively, via `.lower()`) or `127.0.0.1`, or that does not start
with `http://` or `https://`.  Python's `if rpc_url:` guard is falsy for the
empty string, so an empty value skips validation and is returned as-is. -/
def get_rpc_url (env : EnvMap) (chain_id : ℕ) : Option (List Char) :=
  match rpc_env_var chain_id with
  | none => none
  | some rpc_env =>
    match env rpc_env with
    | none => none
    | some rpc_url =>
      if rpc_url = [] then some rpc_url
      else if url_contains "localhost" (rpc_url.map Char.toLower) then none
      else if url_contains "127.0.0.1" rpc_url then none
      else if url_starts_with "http://" rpc_url || url_starts_with "https://" rpc_url then
        some rpc_url
      else none

/-! ## LiquidityGuard (`core/titan_commander_core.py`) -/

/-- Number of binary digits of `n` (`0` has none), computed with an explicit
fuel argument; fuel `n` always suffices since the recursion halves `n`. -/
def bitLenAux : ℕ → ℕ → ℕ
  | 0, _ => 0
  | fuel + 1, n => if n ≤ 1 then n else bitLenAux fuel (n / 2) + 1

/-- Bit length of a natural number. -/
def bitLen (n : ℕ) : ℕ := bitLenAux n n

/-- IEEE-754 binary64 significand rounding on naturals: round `n` to 53
significant bits, to nearest, ties to even.  `r` holds every discarded bit,
so comparing it with `half` detects below/above/exact-tie correctly.
Scaling by a power of two commutes with this rounding, so a positive double
computation `fl(x)` with `x = n · 2^e` is `round53 n · 2^e` (exponent
overflow and subnormals are out of the range this file uses). -/
def round53 (n : ℕ) : ℕ :=
  if bitLen n ≤ 53 then n
  else
    let s := bitLen n - 53
    let q := n / 2 ^ s
    let r := n % 2 ^ s
    let half := 2 ^ (s - 1)
    let m := if half < r then q + 1
             else if r < half then q
             else if q % 2 = 1 then q + 1 else q
    m * 2 ^ s

/-- The significand of the binary64 literal `0.2`:
`fl(0.2) = 3602879701896397 · 2⁻⁵⁴`. -/
def DOUBLE_0_2_NUM : ℕ := 3602879701896397

/-- Model of `max_cap = int(pool_liquidity * self.MAX_TVL_SHARE)` with
`MAX_TVL_SHARE = 0.20`, as CPython executes it: `pool_liquidity` (an int) is
converted to binary64 (`round53 pool_liquidity`), multiplied by `fl(0.2)`
with the product rounded to binary64 again, and truncated toward zero by
`int(...)` — a floor, everything being non-negative:
`⌊round53 (round53 L · 3602879701896397) · 2⁻⁵⁴⌋`.  Bit-faithful for
`0 ≤ L < 2^1024` (beyond that `float(L)` raises `OverflowError` in Python;
on-chain balances are `uint256`, far below). -/
def float_max_cap (pool_liquidity : ℕ) : ℕ :=
  round53 (round53 pool_liquidity * DOUBLE_0_2_NUM) / 2 ^ 54

/-- Model of `TitanCommander.optimize_loan_size`.  The TVL port
(`get_provider_tvl`) is passed in as `tvl`: `none` models the query raising
an exception, `some liquidity` a returned balance.  The cap is the
binary64 computation `float_max_cap`; the minimum floor is
`500 * 10 ^ decimals` raw units. -/
def optimize_loan_size (tvl : Option ℕ) (target_amount_raw : ℕ) (decimals : ℕ) : ℕ :=
  match tvl with
  | none => 0
  | some pool_liquidity =>
    if pool_liquidity = 0 then 0
    else
      let max_cap := float_max_cap pool_liquidity
      let requested_amount :=
        if target_amount_raw > max_cap then max_cap else target_amount_raw
      let min_floor := 500 * 10 ^ decimals
      if requested_amount < min_floor then 0 else requested_amount

/-! ## ProfitEngine (`ml/brain.py`) -/

/-- The dict returned by `ProfitEngine.calculate_enhanced_profit`. -/
structure ProfitResult where
  net_profit : ℚ
  gross_spread : ℚ
  total_fees : ℚ
  is_profitable : Bool
deriving DecidableEq, Repr

/-- Model of `ProfitEngine.calculate_enhanced_profit`.  `flash_fee` is the engine's
`self.flash_fee` (constructor default `0`); all `Decimal` quantities are
modelled as `ℚ`. -/
def calculate_enhanced_profit (flash_fee amount amount_out bridge_fee_usd gas_cost_usd : ℚ) :
    ProfitResult :=
  let gross_revenue_usd := amount_out
  let loan_cost_usd := amount
  let flash_fee_cost := amount * flash_fee
  let total_operational_costs := bridge_fee_usd + gas_cost_usd + flash_fee_cost
  let net_profit := gross_revenue_usd - loan_cost_usd - total_operational_costs
  { net_profit := net_profit
    gross_spread := gross_revenue_usd - loan_cost_usd
    total_fees := total_operational_costs
    is_profitable := decide (net_profit > 0) }

/-! ## Execution modes (`core/execution_modes.py`) -/

/-- The `TradeStatus` enum. -/
inductive TradeStatus where
  | PENDING
  | SIMULATED
  | SUBMITTED
  | CONFIRMED
  | FAILED
  | REVERTED
deriving DecidableEq, Repr

/-- A trade-signal dict.  Each field is optional because the Python code
passes plain dicts and probes keys with `.get` (or raises `KeyError` on
`signal['key']` access). -/
structure SigDict where
  chainId : Option ℕ
  token : Option String
  amount : Option String
  protocols : Option (List ℕ)
  routers : Option (List String)
  path : Option (List String)
  expected_profit : Option ℚ
  estimated_slippage_bps : Option ℕ
  gas_cost : Option ℚ
  confidence_score : Option ℚ
deriving DecidableEq, Repr

/-- The result dict delivered back by the executor (`bot.js`) for a
completed trade: only the fields `record_execution_result` reads. -/
structure ExecResult where
  status : String
  actual_profit : ℚ
deriving DecidableEq, Repr

/-- The Redis state visible to `LiveMainnetExecutor`: the `pending_txs` set,
the `trade_signals` publications, and the `live_trades` list. -/
structure RedisState where
  pending_txs : List String
  published : List (String × SigDict)
  live_trades : List ExecResult
deriving DecidableEq, Repr

/-- The `LiveMainnetExecutor` instance state.  `redis = none` models an
unavailable Redis connection (`redis_enabled = False`); the three safety
limits are the values read from the environment in `__init__`. -/
structure LiveState where
  total_trades : ℕ
  successful_trades : ℕ
  total_profit : ℚ
  trade_history : List ExecResult
  redis : Option RedisState
  min_profit_usd : ℚ
  max_slippage_bps : ℕ
  max_concurrent_txs : ℕ
deriving DecidableEq, Repr

/-- Credentials read from the environment by the pre-execution checks. -/
structure EnvCfg where
  private_key : Option String
  executor_address : Option String
deriving DecidableEq, Repr

/-- The reason returned by a failed pre-execution check.  Each constructor
corresponds to one of the six checks and carries the data the Python
f-string reason interpolates. -/
inductive CheckFail where
  | profitBelowMin (expected min : ℚ)
  | slippageExceeds (slippage max : ℕ)
  | maxConcurrent (max : ℕ)
  | missingFields (fields : List String)
  | privateKeyNotConfigured
  | executorNotConfigured
deriving DecidableEq, Repr

/-- The cause in a `FAILED` execution result. -/
inductive FailCause where
  | precheck (c : CheckFail)
  | redisUnavailable
deriving DecidableEq, Repr

/-- The result dict returned by `LiveMainnetExecutor.execute_trade`. -/
structure LiveOutcome where
  trade_id : String
  status : TradeStatus
  error : Option FailCause
deriving DecidableEq, Repr

/-- Check 4's `[f for f in required_fields if f not in trade_signal]`. -/
def required_missing (sig : SigDict) : List String :=
  ([("chainId", sig.chainId.isNone), ("token", sig.token.isNone),
    ("amount", sig.amount.isNone), ("protocols", sig.protocols.isNone),
    ("routers", sig.routers.isNone), ("path", sig.path.isNone)]).filterMap
    (fun p => if p.2 then some p.1 else none)

/-- Model of `LiveMainnetExecutor.pre_execution_checks`: the six checks in source
order; `none` means `(True, "All checks passed")`, `some c` a
`(False, reason)` pair.  Check 3 is skipped when Redis is unavailable
(`redis = none`), exactly as the `except: pass` does. -/
def pre_execution_checks (env : EnvCfg) (s : LiveState) (sig : SigDict) : Option CheckFail :=
  let expected_profit := sig.expected_profit.getD 0
  if expected_profit < s.min_profit_usd then
    some (.profitBelowMin expected_profit s.min_profit_usd)
  else
    let slippage_bps := sig.estimated_slippage_bps.getD 0
    if slippage_bps > s.max_slippage_bps then
      some (.slippageExceeds slippage_bps s.max_slippage_bps)
    else if (match s.redis with
             | some r => decide (r.pending_txs.length ≥ s.max_concurrent_txs)
             | none => false) then
      some (.maxConcurrent s.max_concurrent_txs)
    else if required_missing sig ≠ [] then
      some (.missingFields (required_missing sig))
    else if (match env.private_key with
             | none => true
             | some k => k = "" || k = "0xYOUR_REAL_PRIVATE_KEY_HERE") then
      some .privateKeyNotConfigured
    else if (match env.executor_address with
             | none => true
             | some a => a = "" || a = "0xYOUR_DEPLOYED_CONTRACT_ADDRESS_HERE") then
      some .executorNotConfigured
    else
      none

/-- Redis `SADD`: add to the set if absent. -/
def redis_sadd (pending : List String) (trade_id : String) : List String :=
  if trade_id ∈ pending then pending else pending ++ [trade_id]

/-- Model of `LiveMainnetExecutor.execute_trade`.  `total_trades` is incremented and
`trade_signal['chainId']` is read (raising `KeyError` when absent, modelled
as `Except.error`) *before* the pre-execution checks run.  A failed check
returns a `FAILED` result without touching Redis; with no Redis connection
the result is `FAILED` with `redisUnavailable`; otherwise the trade id is
added to `pending_txs` and the signal is published. -/
def execute_trade (env : EnvCfg) (s : LiveState) (sig : SigDict) :
    Except String (LiveState × LiveOutcome) :=
  let s1 : LiveState := { s with total_trades := s.total_trades + 1 }
  match sig.chainId with
  | none => .error "KeyError: chainId"
  | some chain_id =>
    let trade_id := "LIVE_" ++ toString chain_id ++ "_" ++ toString s1.total_trades
    match pre_execution_checks env s1 sig with
    | some reason =>
      .ok (s1, { trade_id := trade_id, status := .FAILED, error := some (.precheck reason) })
    | none =>
      match s1.redis with
      | none =>
        .ok (s1, { trade_id := trade_id, status := .FAILED, error := some .redisUnavailable })
      | some r =>
        let r2 : RedisState :=
          { r with pending_txs := redis_sadd r.pending_txs trade_id
                   published := r.published ++ [(trade_id, sig)] }
        .ok ({ s1 with redis := some r2 },
             { trade_id := trade_id, status := .SUBMITTED, error := none })

/-- Model of `LiveMainnetExecutor.record_execution_result`: remove the id from the
pending set, bump `successful_trades`/`total_profit` when the reported
status is `SUCCESS`, append to the history, and `LPUSH` onto
`live_trades`. -/
def record_execution_result (s : LiveState) (trade_id : String) (result : ExecResult) :
    LiveState :=
  let s1 : LiveState :=
    match s.redis with
    | some r => { s with redis := some { r with pending_txs := r.pending_txs.erase trade_id } }
    | none => s
  let s2 : LiveState :=
    if result.status = "SUCCESS" then
      { s1 with successful_trades := s1.successful_trades + 1
                total_profit := s1.total_profit + result.actual_profit }
    else s1
  let s3 : LiveState := { s2 with trade_history := s2.trade_history ++ [result] }
  match s3.redis with
  | some r => { s3 with redis := some { r with live_trades := result :: r.live_trades } }
  | none => s3

/-- One row of `PaperTradingSimulator.trade_history` (the fields carrying
decision data). -/
structure PaperTradeRecord where
  trade_id : String
  expected_profit : ℚ
  actual_profit : ℚ
  gas_cost : ℚ
  net_profit : ℚ
  status : String
deriving DecidableEq, Repr

/-- The `PaperTradingSimulator` instance state. -/
structure PaperState where
  current_capital : ℚ
  total_trades : ℕ
  successful_trades : ℕ
  total_profit : ℚ
  trade_history : List PaperTradeRecord
deriving DecidableEq, Repr

/-- The result dict returned by `PaperTradingSimulator.execute_trade`. -/
structure PaperOutcome where
  trade_id : String
  status : TradeStatus
  net_profit : ℚ
deriving DecidableEq, Repr

/-- Model of `PaperTradingSimulator.execute_trade`: applies the fixed `0.998`
slippage factor (modelled exactly as `499/500`) to the expected profit,
subtracts the gas cost (default `5.0`), updates capital and counters, and
returns a `SIMULATED` result.  `signal['chainId']`, `signal['token']` and
`signal['amount']` are accessed with brackets, so their absence raises. -/
def paper_execute (s : PaperState) (sig : SigDict) :
    Except String (PaperState × PaperOutcome) :=
  let s1 : PaperState := { s with total_trades := s.total_trades + 1 }
  match sig.chainId, sig.token, sig.amount with
  | some chain_id, some _, some _ =>
    let trade_id := "PAPER_" ++ toString chain_id ++ "_" ++ toString s1.total_trades
    let expected_profit := sig.expected_profit.getD 0
    let actual_profit := expected_profit * (499 / 500 : ℚ)
    let gas_cost := sig.gas_cost.getD 5
    let net_profit := actual_profit - gas_cost
    let s2 : PaperState :=
      { s1 with current_capital := s1.current_capital + net_profit
                total_profit := s1.total_profit + net_profit
                successful_trades :=
                  if net_profit > 0 then s1.successful_trades + 1 else s1.successful_trades
                trade_history := s1.trade_history ++
                  [{ trade_id := trade_id, expected_profit := expected_profit,
                     actual_profit := actual_profit, gas_cost := gas_cost,
                     net_profit := net_profit,
                     status := if net_profit > 0 then "SUCCESS" else "LOSS" }] }
    .ok (s2, { trade_id := trade_id, status := .SIMULATED, net_profit := net_profit })
  | _, _, _ => .error "KeyError: chainId or token or amount"

/-- The `HybridExecutionManager` state: one paper simulator, one live executor,
and the confidence threshold (constructor default `0.85`). -/
structure HybridState where
  paper : PaperState
  live : LiveState
  confidence_threshold : ℚ
deriving DecidableEq, Repr

/-- The default `confidence_threshold = 0.85`, modelled exactly. -/
def HYBRID_DEFAULT_THRESHOLD : ℚ := 17 / 20

/-- The outcome of `HybridExecutionManager.execute_trade`, tagged with the
executor that ran the signal. -/
inductive HybridResult where
  | live (r : Except String (LiveState × LiveOutcome))
  | paper (r : Except String (PaperState × PaperOutcome))

/-- Whether a hybrid outcome came from the live executor. -/
def HybridResult.isLive : HybridResult → Bool
  | .live _ => true
  | .paper _ => false

/-- Model of `HybridExecutionManager.execute_trade`: reads
`trade_signal.get('confidence_score', 0.0)` and routes to the live executor
iff it is `>=` the threshold, otherwise to the paper simulator. -/
def hybrid_execute (env : EnvCfg) (h : HybridState) (sig : SigDict) : HybridResult :=
  if sig.confidence_score.getD 0 ≥ h.confidence_threshold then
    .live (execute_trade env h.live sig)
  else
    .paper (paper_execute h.paper sig)

/-! ## ExecutionManager (`execution/execution_client.py`) -/

/-- The `ExecutionManager.stats` counters. -/
structure Stats where
  sent : ℕ
  succeeded : ℕ
  failed : ℕ
  retried : ℕ
deriving DecidableEq, Repr

/-- One response of `ExecutionClient.execute_signal` as observed by
`submit_trade`: either a result dict with its `success` flag and payload, or
an exception escaping `execute_signal` (caught by `submit_trade`'s
`except`). -/
inductive AttemptOutcome where
  | result (success : Bool) (payload : String)
  | exn (msg : String)
deriving DecidableEq, Repr

/-- What `submit_trade` returns: the successful result, the final
non-success result, the synthesized error dict, or the unreachable
fall-through `{"success": False, "error": "Max retries exceeded"}`. -/
inductive SubmitResult where
  | ok (payload : String)
  | failed (payload : String)
  | error (msg : String)
  | maxRetriesExceeded
deriving DecidableEq, Repr

/-- The body of `submit_trade`'s `for attempt in range(max_retries)` loop.
`responses` is the oracle giving `execute_signal`'s response on each
attempt; `remaining = max_retries - attempt` counts the attempts left, so
Python's `attempt < max_retries - 1` is `remaining > 1`.  The trace also
counts how many times `execute_signal` was invoked (`calls`). -/
def submit_attempts (responses : ℕ → AttemptOutcome) :
    (attempt : ℕ) → (remaining : ℕ) → Stats → (calls : ℕ) → Stats × ℕ × SubmitResult
  | _, 0, stats, calls => (stats, calls, .maxRetriesExceeded)
  | attempt, remaining + 1, stats, calls =>
    match responses attempt, remaining with
    | .result true payload, _ =>
      ({ stats with succeeded := stats.succeeded + 1 }, calls + 1, .ok payload)
    | .result false payload, 0 =>
      ({ stats with failed := stats.failed + 1 }, calls + 1, .failed payload)
    | .result false _, rem + 1 =>
      submit_attempts responses (attempt + 1) (rem + 1)
        { stats with retried := stats.retried + 1 } (calls + 1)
    | .exn msg, 0 =>
      ({ stats with failed := stats.failed + 1 }, calls + 1, .error msg)
    | .exn _, rem + 1 =>
      submit_attempts responses (attempt + 1) (rem + 1)
        { stats with retried := stats.retried + 1 } (calls + 1)

/-- Model of `ExecutionManager.submit_trade`: bump `sent`, then run the retry loop.
Returns the final counters, the number of `execute_signal` invocations, and
the returned result. -/
def submit_trade (responses : ℕ → AttemptOutcome) (max_retries : ℕ) (stats : Stats) :
    Stats × ℕ × SubmitResult :=
  submit_attempts responses 0 max_retries { stats with sent := stats.sent + 1 } 0

/-- A sequence of completed `submit_trade` calls on one manager
(`max_retries` is fixed per instance), each with its own response oracle. -/
def run_submissions (max_retries : ℕ) (oracles : List (ℕ → AttemptOutcome)) (stats : Stats) :
    Stats :=
  oracles.foldl (fun st o => (submit_trade o max_retries st).1) stats

/-! ## OpportunityGraph bridge edges (`ml/brain.py`, `OmniBrain._build_bridge_edges`) -/

/-- The list `TokenDiscovery.BRIDGE_ASSETS` (`core/token_discovery.py`). -/
def BRIDGE_ASSETS : List String :=
  ["USDC", "USDT", "DAI", "WETH", "WBTC", "USDC.e", "LINK", "UNI", "AAVE", "CRV"]

/-- The token inventory: an association list from chain id to the symbols
the chain carries (`self.inventory`). -/
def Inventory : Type := List (ℕ × List String)

/-- Model of `[cid for cid in self.inventory if symbol in self.inventory[cid]]`. -/
def chains_with_asset (inventory : Inventory) (symbol : String) : List ℕ :=
  (inventory.filter (fun c => decide (symbol ∈ c.2))).map Prod.fst

/-- The inner `for j in range(i+1, ...)` loop: both directed edges between
chain `a` and every later chain, tagged with the symbol (an edge between two
token nodes of that symbol). -/
def pair_edges (symbol : String) (a : ℕ) : List ℕ → List (String × ℕ × ℕ)
  | [] => []
  | b :: bs => (symbol, a, b) :: (symbol, b, a) :: pair_edges symbol a bs

/-- The outer `for i in range(...)` loop over `chains_with_asset`. -/
def add_pair_edges (symbol : String) : List ℕ → List (String × ℕ × ℕ)
  | [] => []
  | a :: rest => pair_edges symbol a rest ++ add_pair_edges symbol rest

/-- Model of `OmniBrain._build_bridge_edges`: for every bridge asset, add both
directed edges between every unordered pair of chains carrying it. -/
def build_bridge_edges (inventory : Inventory) : List (String × ℕ × ℕ) :=
  BRIDGE_ASSETS.foldr (fun symbol acc =>
    add_pair_edges symbol (chains_with_asset inventory symbol) ++ acc) []

/-! ## Concrete fixtures used by witnesses and counterexamples -/

/-- A fully configured credential environment. -/
def envOk : EnvCfg :=
  { private_key := some "0xabc123", executor_address := some "0xdeadbeef" }

/-- A fresh, empty Redis state. -/
def redisEmpty : RedisState := { pending_txs := [], published := [], live_trades := [] }

/-- A fresh live executor with the default limits
(`MIN_PROFIT_USD = 5.0`, `MAX_SLIPPAGE_BPS = 50`, `MAX_CONCURRENT_TXS = 3`)
and a healthy Redis connection. -/
def liveFresh : LiveState :=
  { total_trades := 0, successful_trades := 0, total_profit := 0, trade_history := []
    redis := some redisEmpty, min_profit_usd := 5, max_slippage_bps := 50
    max_concurrent_txs := 3 }

/-- A fresh paper simulator with the default initial capital. -/
def paperFresh : PaperState :=
  { current_capital := 100000, total_trades := 0, successful_trades := 0
    total_profit := 0, trade_history := [] }

/-- A complete trade signal whose expected profit is `$4.99`. -/
def sigProfit499 : SigDict :=
  { chainId := some 137, token := some "0xUSDC", amount := some "200000"
    protocols := some [1, 2], routers := some ["0xRouterA", "0xRouterB"]
    path := some ["0xWETH", "0xUSDC"], expected_profit := some (499 / 100)
    estimated_slippage_bps := some 20, gas_cost := none
    confidence_score := some (9 / 10) }

/-- A signal with no `chainId` key (and expected profit `$4.99`). -/
def sigNoChainId : SigDict :=
  { chainId := none, token := none, amount := none, protocols := none
    routers := none, path := none, expected_profit := some (499 / 100)
    estimated_slippage_bps := none, gas_cost := none, confidence_score := none }

/-- Zeroed `ExecutionManager` counters. -/
def statsZero : Stats := { sent := 0, succeeded := 0, failed := 0, retried := 0 }

/-- An inventory carrying `USDC` on exactly three chains. -/
def invThreeChains : Inventory := [(1, ["USDC"]), (137, ["USDC"]), (42161, ["USDC"])]

/-- An environment whose Polygon RPC URL points at localhost. -/
def envLocalhost : EnvMap :=
  fun v => if v = "RPC_POLYGON" then some "http://localhost:8545".data else none

/-- The hybrid manager with the default `0.85` threshold and fresh
sub-executors. -/
def hybridFresh : HybridState :=
  { paper := paperFresh, live := liveFresh, confidence_threshold := HYBRID_DEFAULT_THRESHOLD }

/-- A signal whose confidence exactly equals the default threshold. -/
def sigConfTie : SigDict :=
  { sigProfit499 with confidence_score := some HYBRID_DEFAULT_THRESHOLD }

/-! ## Claim theorems -/

set_option maxRecDepth 10000 in
/-- C1 counterexample: at pool liquidity `L = 4999999999999999999` (about
five 18-decimals tokens in raw units) the binary64 cap is
`int(fl(fl(L)·fl(0.2))) = 10^18`: `float(L)` rounds up to `5·10^18` (ulp
there is 1024) and `5·10^18 · fl(0.2) = 10^18 + 55.5…` rounds down to
`10^18` (ulp 128).  With a large enough request the guard returns `10^18`,
which exceeds `floor(L·0.20) = 10^18 − 1`, so the claimed bound
`returned ≤ floor(L·f)` is false of the program. -/
theorem optimize_loan_size_cap_exceeds_floor_cex :
    optimize_loan_size (some 4999999999999999999) 1000000000000000000 0
      = 1000000000000000000 ∧
    4999999999999999999 / 5 = 999999999999999999 ∧
    ¬ optimize_loan_size (some 4999999999999999999) 1000000000000000000 0
        ≤ 4999999999999999999 / 5 := by
  have hval : optimize_loan_size (some 4999999999999999999) 1000000000000000000 0
      = 1000000000000000000 := by decide
  refine ⟨hval, by norm_num, ?_⟩
  rw [hval]
  decide

/-- C1 (amended): the returned amount never exceeds the cap the code
actually computes, `int(fl(fl(liquidity)·fl(0.20)))` in binary64 arithmetic
(`float_max_cap`) — by floating-point rounding this cap can exceed the
exact `floor(liquidity · 0.20)`, as the counterexample shows; a failed TVL
query or zero liquidity returns exactly `0`; a (possibly clamped) amount
below the floor `500 * 10 ^ decimals` returns exactly `0`; and liquidity
`1,000,000`, request `500,000`, decimals `6` returns `0` (there the float
cap is the exact `200,000`). -/
theorem optimize_loan_size_guard :
    (∀ liquidity target d,
      optimize_loan_size (some liquidity) target d ≤ float_max_cap liquidity) ∧
    (∀ target d, optimize_loan_size none target d = 0) ∧
    (∀ target d, optimize_loan_size (some 0) target d = 0) ∧
    (∀ liquidity target d, min target (float_max_cap liquidity) < 500 * 10 ^ d →
      optimize_loan_size (some liquidity) target d = 0) ∧
    optimize_loan_size (some 1000000) 500000 6 = 0 := by
  refine ⟨?_, fun _ _ => rfl, fun _ _ => rfl, ?_, by decide⟩
  · intro liquidity target d
    unfold optimize_loan_size
    by_cases hL : liquidity = 0
    · simp [hL]
    · simp only [hL, if_false]
      split <;> split <;> omega
  · intro liquidity target d h
    unfold optimize_loan_size
    by_cases hL : liquidity = 0
    · simp [hL]
    · simp only [hL, if_false]
      have hreq : (if target > float_max_cap liquidity then float_max_cap liquidity else target)
          = min target (float_max_cap liquidity) := by
        split <;> omega
      rw [hreq, if_pos h]

/-- C1 witness: the concrete scenario from the spec, obtained from the
floor-abort clause of `optimize_loan_size_guard`. -/
theorem optimize_loan_size_guard_witness :
    optimize_loan_size (some 1000000) 500000 6 = 0 :=
  optimize_loan_size_guard.2.2.2.1 1000000 500000 6 (by decide)

/-- C2: `ChainRegistry.is_execution_enabled` is false for every chain id
outside the fixed `ENABLED` whitelist (which is exactly `[137]`), and true
exactly when the chain's static state is `ENABLED`.  The method reads only
the static `CHAIN_STATES` table, so RPC health cannot influence it. -/
theorem execution_whitelist :
    (∀ chain_id, chain_id ∉ get_enabled_chains → is_execution_enabled chain_id = false) ∧
    (∀ chain_id, is_execution_enabled chain_id = true ↔
      CHAIN_STATES chain_id = some ChainExecutionState.ENABLED) ∧
    get_enabled_chains = [137] := by
  have hiff : ∀ chain_id, is_execution_enabled chain_id = true ↔
      CHAIN_STATES chain_id = some ChainExecutionState.ENABLED := by
    intro c
    simp [is_execution_enabled]
  refine ⟨?_, hiff, by decide⟩
  intro c hc
  by_contra hbool
  have htrue : is_execution_enabled c = true := by
    revert hbool
    cases is_execution_enabled c <;> simp
  have hstate := (hiff c).mp htrue
  have hc137 : c = 137 := by
    unfold CHAIN_STATES at hstate
    by_cases h137 : c = 137
    · exact h137
    · by_cases h1 : c = 1 <;> by_cases h42 : c = 42161 <;>
        simp [h137, h1, h42] at hstate
  apply hc
  rw [hc137]
  decide

/-- C2 witness: chain `1` (Ethereum, `CONFIGURED`) is not in the whitelist
and execution is disabled there. -/
theorem execution_whitelist_witness :
    is_execution_enabled 1 = false :=
  execution_whitelist.1 1 (by decide)

/-- C6: `ProfitEngine.calculate_enhanced_profit` returns exactly
`net = out - loan - (bridge + gas + loan * rate)`,
`total_fees = bridge + gas + loan * rate`, `gross_spread = out - loan`, and
`is_profitable` iff `net > 0` strictly, so `net = 0` is not profitable. -/
theorem profit_engine_exact :
    ∀ flash_fee amount amount_out bridge_fee gas_fee : ℚ,
      (calculate_enhanced_profit flash_fee amount amount_out bridge_fee gas_fee).net_profit
        = amount_out - amount - (bridge_fee + gas_fee + amount * flash_fee) ∧
      (calculate_enhanced_profit flash_fee amount amount_out bridge_fee gas_fee).total_fees
        = bridge_fee + gas_fee + amount * flash_fee ∧
      (calculate_enhanced_profit flash_fee amount amount_out bridge_fee gas_fee).gross_spread
        = amount_out - amount ∧
      ((calculate_enhanced_profit flash_fee amount amount_out bridge_fee gas_fee).is_profitable
          = true ↔
        0 < (calculate_enhanced_profit flash_fee amount amount_out bridge_fee gas_fee).net_profit) ∧
      ((calculate_enhanced_profit flash_fee amount amount_out bridge_fee gas_fee).net_profit = 0 →
        (calculate_enhanced_profit flash_fee amount amount_out bridge_fee gas_fee).is_profitable
          = false) := by
  intro flash_fee amount amount_out bridge_fee gas_fee
  refine ⟨rfl, rfl, rfl, by simp [calculate_enhanced_profit], ?_⟩
  intro h
  simp only [calculate_enhanced_profit] at h ⊢
  simp [h]

/-- C6 witness: all-zero inputs give `net_profit = 0`, which is not
profitable. -/
theorem profit_engine_exact_witness :
    (calculate_enhanced_profit 0 0 0 0 0).is_profitable = false :=
  (profit_engine_exact 0 0 0 0 0).2.2.2.2 (by simp [calculate_enhanced_profit])

/-- A boolean prefix is preserved by mapping a function over both lists. -/
theorem isPrefixOf_map_of_isPrefixOf (f : Char → Char) :
    ∀ {n h : List Char}, n.isPrefixOf h = true → (n.map f).isPrefixOf (h.map f) = true := by
  intro n
  induction n with
  | nil => intro h _; simp
  | cons a as ih =>
    intro h hp
    cases h with
    | nil => simp at hp
    | cons b bs =>
      simp only [List.isPrefixOf_cons₂, Bool.and_eq_true, beq_iff_eq] at hp
      obtain ⟨rfl, hrest⟩ := hp
      simp [List.isPrefixOf_cons₂, ih hrest]

/-- Substring containment is preserved by mapping a function over both
lists. -/
theorem contains_sub_map_of_contains_sub (f : Char → Char) :
    ∀ {n h : List Char}, contains_sub n h = true →
      contains_sub (n.map f) (h.map f) = true := by
  intro n h
  induction h with
  | nil =>
    intro hc
    simp only [contains_sub, List.isEmpty_iff] at hc
    simp [contains_sub, hc]
  | cons c rest ih =>
    intro hc
    simp only [contains_sub, Bool.or_eq_true] at hc ⊢
    rcases hc with hp | hc
    · exact Or.inl (isPrefixOf_map_of_isPrefixOf f hp)
    · exact Or.inr (ih hc)

/-- C7: for every chain with a configured (non-empty) RPC environment
variable, `ChainRegistry.get_rpc_url` returns `None` whenever the configured
URL contains `localhost` or `127.0.0.1` or does not start with `http://` or
`https://`; and the function never invents a URL: it returns either `None`
or exactly the environment-configured value (no fallback to a local/default
endpoint). -/
theorem rpc_url_rejects_unsafe :
    (∀ (env : EnvMap) (chain_id : ℕ) (rpc_env : String) (url : List Char),
      rpc_env_var chain_id = some rpc_env →
      env rpc_env = some url → url ≠ [] →
      (url_contains "localhost" url = true ∨ url_contains "127.0.0.1" url = true ∨
        (url_starts_with "http://" url = false ∧ url_starts_with "https://" url = false)) →
      get_rpc_url env chain_id = none) ∧
    (∀ (env : EnvMap) (chain_id : ℕ),
      get_rpc_url env chain_id = none ∨
      ∃ rpc_env url, rpc_env_var chain_id = some rpc_env ∧ env rpc_env = some url ∧
        get_rpc_url env chain_id = some url) := by
  constructor
  · intro env chain_id rpc_env url h1 h2 hne hbad
    simp only [get_rpc_url, h1, h2]
    split_ifs with he hlh h127 hsch
    · exact absurd he hne
    · rfl
    · rfl
    · exfalso
      rcases hbad with hl | h7 | ⟨hs1, hs2⟩
      · apply hlh
        have hmapped := contains_sub_map_of_contains_sub Char.toLower hl
        have hfix : ("localhost".data.map Char.toLower) = "localhost".data := by decide
        unfold url_contains at hmapped ⊢
        rwa [hfix] at hmapped
      · exact h127 h7
      · simp only [url_starts_with] at hs1 hs2 hsch
        simp [hs1, hs2] at hsch
    · rfl
  · intro env chain_id
    cases h1 : rpc_env_var chain_id with
    | none => left; simp only [get_rpc_url, h1]
    | some rpc_env =>
      cases h2 : env rpc_env with
      | none => left; simp only [get_rpc_url, h1, h2]
      | some url =>
        simp only [get_rpc_url, h1, h2]
        split_ifs with he hlh h127 hsch
        · exact Or.inr ⟨rpc_env, url, rfl, h2, rfl⟩
        · exact Or.inl rfl
        · exact Or.inl rfl
        · exact Or.inr ⟨rpc_env, url, rfl, h2, rfl⟩
        · exact Or.inl rfl

/-- C7 witness: a localhost Polygon RPC URL is rejected. -/
theorem rpc_url_rejects_unsafe_witness :
    get_rpc_url envLocalhost 137 = none :=
  rpc_url_rejects_unsafe.1 envLocalhost 137 "RPC_POLYGON" "http://localhost:8545".data
    rfl rfl (by decide) (Or.inl (by decide))

/-- C8: `HybridExecutionManager.execute_trade` routes a signal to the live
executor iff its confidence score (default `0`) is at least the configured
threshold; a signal whose confidence score equals the threshold routes to
live. -/
theorem hybrid_routing :
    (∀ (env : EnvCfg) (h : HybridState) (sig : SigDict),
      (hybrid_execute env h sig).isLive = true ↔
        h.confidence_threshold ≤ sig.confidence_score.getD 0) ∧
    (∀ (env : EnvCfg) (h : HybridState) (sig : SigDict),
      sig.confidence_score = some h.confidence_threshold →
      (hybrid_execute env h sig).isLive = true) := by
  have hmain : ∀ (env : EnvCfg) (h : HybridState) (sig : SigDict),
      (hybrid_execute env h sig).isLive = true ↔
        h.confidence_threshold ≤ sig.confidence_score.getD 0 := by
    intro env h sig
    unfold hybrid_execute
    split_ifs with hc
    · simp [HybridResult.isLive, hc]
    · simp [HybridResult.isLive, hc]
  refine ⟨hmain, ?_⟩
  intro env h sig hconf
  exact (hmain env h sig).mpr (by rw [hconf]; exact le_refl _)

/-- C8 witness: with the default `0.85` threshold, a confidence of exactly
`0.85` routes to the live executor. -/
theorem hybrid_routing_witness :
    (hybrid_execute envOk hybridFresh sigConfTie).isLive = true :=
  hybrid_routing.2 envOk hybridFresh sigConfTie rfl

/-- Every edge produced by the inner bridge-edge loop is tagged with its
symbol. -/
theorem pair_edges_fst (s : String) (a : ℕ) :
    ∀ (bs : List ℕ), ∀ e ∈ pair_edges s a bs, e.1 = s := by
  intro bs
  induction bs with
  | nil => simp [pair_edges]
  | cons b bs ih =>
    intro e he
    simp only [pair_edges, List.mem_cons] at he
    rcases he with rfl | rfl | he
    · rfl
    · rfl
    · exact ih e he

/-- Every edge produced by the outer bridge-edge loop is tagged with its
symbol. -/
theorem add_pair_edges_fst (s : String) :
    ∀ (cs : List ℕ), ∀ e ∈ add_pair_edges s cs, e.1 = s := by
  intro cs
  induction cs with
  | nil => simp [add_pair_edges]
  | cons a rest ih =>
    intro e he
    rcases List.mem_append.mp he with h | h
    · exact pair_edges_fst s a rest e h
    · exact ih e h

/-- The inner loop adds two directed edges per later chain. -/
theorem pair_edges_length (s : String) (a : ℕ) :
    ∀ (bs : List ℕ), (pair_edges s a bs).length = 2 * bs.length := by
  intro bs
  induction bs with
  | nil => rfl
  | cons b bs ih => simp [pair_edges, ih]; omega

/-- The double loop over `n` chains adds exactly `n * (n - 1)` directed
edges. -/
theorem add_pair_edges_length (s : String) :
    ∀ (cs : List ℕ), (add_pair_edges s cs).length = cs.length * (cs.length - 1) := by
  intro cs
  induction cs with
  | nil => rfl
  | cons a rest ih =>
    simp only [add_pair_edges, List.length_append, pair_edges_length, ih, List.length_cons]
    generalize rest.length = n
    cases n with
    | zero => simp
    | succ k => simp; ring

/-- Every edge in the combined fold has the symbol of one of the assets. -/
theorem mem_bridge_foldr_fst (f : String → List ℕ) :
    ∀ (assets : List String) (e : String × ℕ × ℕ),
      e ∈ assets.foldr (fun s acc => add_pair_edges s (f s) ++ acc) [] →
      ∃ s ∈ assets, e.1 = s := by
  intro assets
  induction assets with
  | nil => simp
  | cons s rest ih =>
    intro e he
    rcases List.mem_append.mp he with h | h
    · exact ⟨s, List.mem_cons_self s rest, add_pair_edges_fst s (f s) e h⟩
    · obtain ⟨t, ht, het⟩ := ih e h
      exact ⟨t, List.mem_cons_of_mem s ht, het⟩

/-- Filtering the combined fold down to one asset's symbol leaves exactly
that asset's `n * (n - 1)` edges, provided the asset list has no
duplicates. -/
theorem bridge_foldr_count (f : String → List ℕ) :
    ∀ (assets : List String), assets.Nodup → ∀ symbol ∈ assets,
      ((assets.foldr (fun s acc => add_pair_edges s (f s) ++ acc) []).filter
          (fun e => e.1 == symbol)).length
        = (f symbol).length * ((f symbol).length - 1) := by
  intro assets
  induction assets with
  | nil => intro _ symbol h; simp at h
  | cons s rest ih =>
    intro hnd symbol hmem
    rw [List.foldr_cons, List.filter_append, List.length_append]
    rcases List.mem_cons.mp hmem with rfl | hmem'
    · have h1 : (add_pair_edges symbol (f symbol)).filter (fun e => e.1 == symbol)
          = add_pair_edges symbol (f symbol) :=
        List.filter_eq_self.mpr (fun e he => by
          simp [add_pair_edges_fst symbol (f symbol) e he])
      have hnotin : symbol ∉ rest := (List.nodup_cons.mp hnd).1
      have h2 : ((rest.foldr (fun s acc => add_pair_edges s (f s) ++ acc) []).filter
          (fun e => e.1 == symbol)) = [] := by
        rw [List.filter_eq_nil_iff]
        intro e he
        obtain ⟨t, ht, het⟩ := mem_bridge_foldr_fst f rest e he
        simp only [beq_iff_eq, het]
        intro hts
        exact hnotin (hts ▸ ht)
      rw [h1, h2, add_pair_edges_length]
      simp
    · have hnotin : s ∉ rest := (List.nodup_cons.mp hnd).1
      have hns : s ≠ symbol := fun h => hnotin (h ▸ hmem')
      have h1 : (add_pair_edges s (f s)).filter (fun e => e.1 == symbol) = [] := by
        rw [List.filter_eq_nil_iff]
        intro e he
        simp only [beq_iff_eq, add_pair_edges_fst s (f s) e he]
        exact hns
      rw [h1]
      simp only [List.length_nil, Nat.zero_add]
      exact ih (List.nodup_cons.mp hnd).2 symbol hmem'

/-- C9: for every bridgeable symbol, `OmniBrain._build_bridge_edges` adds
exactly `n * (n - 1)` directed bridge edges for that symbol, where `n` is
the number of inventory chains carrying it. -/
theorem bridge_edges_pair_count :
    ∀ (inventory : Inventory) (symbol : String), symbol ∈ BRIDGE_ASSETS →
      ((build_bridge_edges inventory).filter (fun e => e.1 == symbol)).length
        = (chains_with_asset inventory symbol).length *
          ((chains_with_asset inventory symbol).length - 1) := by
  intro inventory symbol hmem
  exact bridge_foldr_count (chains_with_asset inventory) BRIDGE_ASSETS (by decide) symbol hmem

/-- C9 witness: `USDC` on three chains yields exactly six directed edges. -/
theorem bridge_edges_pair_count_witness :
    ((build_bridge_edges invThreeChains).filter (fun e => e.1 == "USDC")).length = 6 := by
  rw [bridge_edges_pair_count invThreeChains "USDC" (by decide)]
  rfl

/-- Lemma: `record_execution_result` bumps `successful_trades` exactly when the
reported status is `SUCCESS`. -/
theorem record_successful_trades (s : LiveState) (trade_id : String) (r : ExecResult) :
    (record_execution_result s trade_id r).successful_trades
      = if r.status = "SUCCESS" then s.successful_trades + 1 else s.successful_trades := by
  unfold record_execution_result
  cases hredis : s.redis <;> split_ifs <;> simp [hredis]

/-- Lemma: `record_execution_result` adds `actual_profit` exactly when the
reported status is `SUCCESS`. -/
theorem record_total_profit (s : LiveState) (trade_id : String) (r : ExecResult) :
    (record_execution_result s trade_id r).total_profit
      = if r.status = "SUCCESS" then s.total_profit + r.actual_profit else s.total_profit := by
  unfold record_execution_result
  cases hredis : s.redis <;> split_ifs <;> simp [hredis]

/-- C3 counterexample: delivering the same `SUCCESS` result for the same
trade id twice changes the performance counters again on the second call
(`successful_trades` goes 1 → 2, `total_profit` 1 → 2), so
`record_execution_result` is not idempotent as claimed. -/
theorem record_result_not_idempotent_cex :
    (record_execution_result (record_execution_result liveFresh "TRADE_1"
        { status := "SUCCESS", actual_profit := 1 }) "TRADE_1"
        { status := "SUCCESS", actual_profit := 1 }).successful_trades = 2 ∧
    (record_execution_result liveFresh "TRADE_1"
        { status := "SUCCESS", actual_profit := 1 }).successful_trades = 1 ∧
    (record_execution_result (record_execution_result liveFresh "TRADE_1"
        { status := "SUCCESS", actual_profit := 1 }) "TRADE_1"
        { status := "SUCCESS", actual_profit := 1 }).total_profit = 2 ∧
    (record_execution_result liveFresh "TRADE_1"
        { status := "SUCCESS", actual_profit := 1 }).total_profit = 1 := by
  refine ⟨?_, ?_, ?_, ?_⟩ <;>
    norm_num [record_successful_trades, record_total_profit, liveFresh]

/-- C3 (amended): duplicate delivery of the same `(tradeId, result)` pair
leaves the performance counters unchanged only when the result status is
not `SUCCESS`; for a `SUCCESS` result the second call increments
`successful_trades` again and adds `actual_profit` again. -/
theorem record_result_counters_behavior :
    (∀ (s : LiveState) (trade_id : String) (r : ExecResult), r.status ≠ "SUCCESS" →
      (record_execution_result (record_execution_result s trade_id r) trade_id
          r).successful_trades
        = (record_execution_result s trade_id r).successful_trades ∧
      (record_execution_result (record_execution_result s trade_id r) trade_id r).total_profit
        = (record_execution_result s trade_id r).total_profit) ∧
    (∀ (s : LiveState) (trade_id : String) (r : ExecResult), r.status = "SUCCESS" →
      (record_execution_result (record_execution_result s trade_id r) trade_id
          r).successful_trades
        = (record_execution_result s trade_id r).successful_trades + 1 ∧
      (record_execution_result (record_execution_result s trade_id r) trade_id r).total_profit
        = (record_execution_result s trade_id r).total_profit + r.actual_profit) := by
  constructor
  · intro s trade_id r h
    rw [record_successful_trades, record_total_profit, if_neg h, if_neg h]
    exact ⟨rfl, rfl⟩
  · intro s trade_id r h
    rw [record_successful_trades, record_total_profit, if_pos h, if_pos h]
    exact ⟨rfl, rfl⟩

/-- C3 witness: a non-`SUCCESS` result is idempotent on the counters. -/
theorem record_result_counters_behavior_witness :
    (record_execution_result (record_execution_result liveFresh "TRADE_2"
        { status := "FAILED", actual_profit := 3 }) "TRADE_2"
        { status := "FAILED", actual_profit := 3 }).successful_trades
      = (record_execution_result liveFresh "TRADE_2"
          { status := "FAILED", actual_profit := 3 }).successful_trades ∧
    (record_execution_result (record_execution_result liveFresh "TRADE_2"
        { status := "FAILED", actual_profit := 3 }) "TRADE_2"
        { status := "FAILED", actual_profit := 3 }).total_profit
      = (record_execution_result liveFresh "TRADE_2"
          { status := "FAILED", actual_profit := 3 }).total_profit :=
  record_result_counters_behavior.1 liveFresh "TRADE_2"
    { status := "FAILED", actual_profit := 3 } (by decide)

/-- C5 counterexample: a trade signal without a `chainId` key whose
pre-execution checks fail (profit `$4.99` below the `$5.00` minimum, and
required fields missing) makes `execute_trade` raise `KeyError` at the
`trade_signal['chainId']` access instead of returning a `FAILED` result. -/
theorem live_missing_chainId_raises_cex :
    pre_execution_checks envOk liveFresh sigNoChainId
      = some (CheckFail.profitBelowMin (499 / 100) 5) ∧
    execute_trade envOk liveFresh sigNoChainId = Except.error "KeyError: chainId" := by
  constructor
  · norm_num [pre_execution_checks, sigNoChainId, liveFresh]
  · rfl

/-- C5 (amended): for every trade signal that does contain the `chainId`
field, a pre-execution check failure makes
`LiveMainnetExecutor.execute_trade` return a `FAILED` result carrying the
check's reason, with the signal never added to the pending set and nothing
published to the executor (the returned state differs from the input state
only in `total_trades`, so its Redis state — pending set and publications —
is exactly the input's).  A signal lacking `chainId` instead raises
`KeyError` before validation. -/
theorem live_precheck_failure_no_submission :
    ∀ (env : EnvCfg) (s : LiveState) (sig : SigDict) (chain_id : ℕ) (reason : CheckFail),
      sig.chainId = some chain_id →
      pre_execution_checks env s sig = some reason →
      execute_trade env s sig =
        Except.ok ({ s with total_trades := s.total_trades + 1 },
          { trade_id := "LIVE_" ++ toString chain_id ++ "_" ++ toString (s.total_trades + 1)
            status := TradeStatus.FAILED
            error := some (FailCause.precheck reason) }) ∧
      ({ s with total_trades := s.total_trades + 1 } : LiveState).redis = s.redis := by
  intro env s sig chain_id reason hchain hpre
  refine ⟨?_, rfl⟩
  have hpre' : pre_execution_checks env { s with total_trades := s.total_trades + 1 } sig
      = some reason := hpre
  simp only [execute_trade, hchain, hpre']

/-- C5 witness: the `$4.99` signal fails the minimum-profit check, yielding
`FAILED` with the shortfall reason and no Redis mutation. -/
theorem live_precheck_failure_no_submission_witness :
    execute_trade envOk liveFresh sigProfit499 =
      Except.ok ({ liveFresh with total_trades := 1 },
        { trade_id := "LIVE_" ++ toString 137 ++ "_" ++ toString 1
          status := TradeStatus.FAILED
          error := some (FailCause.precheck (CheckFail.profitBelowMin (499 / 100) 5)) }) ∧
    ({ liveFresh with total_trades := 1 } : LiveState).redis = liveFresh.redis :=
  live_precheck_failure_no_submission envOk liveFresh sigProfit499 137
    (CheckFail.profitBelowMin (499 / 100) 5) rfl
    (by norm_num [pre_execution_checks, sigProfit499, liveFresh, envOk, required_missing])

/-- One pass of the retry loop with at least one attempt left preserves
`sent`, settles exactly one of `succeeded`/`failed`, and invokes
`execute_signal` between once and `remaining + 1` times. -/
theorem submit_attempts_spec (responses : ℕ → AttemptOutcome) :
    ∀ (remaining attempt : ℕ) (stats : Stats) (calls : ℕ),
      (submit_attempts responses attempt (remaining + 1) stats calls).1.sent = stats.sent ∧
      (submit_attempts responses attempt (remaining + 1) stats calls).1.succeeded +
        (submit_attempts responses attempt (remaining + 1) stats calls).1.failed
        = stats.succeeded + stats.failed + 1 ∧
      calls + 1 ≤ (submit_attempts responses attempt (remaining + 1) stats calls).2.1 ∧
      (submit_attempts responses attempt (remaining + 1) stats calls).2.1
        ≤ calls + remaining + 1 := by
  intro remaining
  induction remaining with
  | zero =>
    intro attempt stats calls
    cases hr : responses attempt with
    | result success payload =>
      cases success <;> simp [submit_attempts, hr] <;> omega
    | exn msg => simp [submit_attempts, hr]; omega
  | succ rem ih =>
    intro attempt stats calls
    cases hr : responses attempt with
    | result success payload =>
      cases success
      · have h := ih (attempt + 1) { stats with retried := stats.retried + 1 } (calls + 1)
        have hstep : submit_attempts responses attempt (rem + 1 + 1) stats calls
            = submit_attempts responses (attempt + 1) (rem + 1)
                { stats with retried := stats.retried + 1 } (calls + 1) := by
          simp [submit_attempts, hr]
        rw [hstep]
        have h3 := h.2.2.1
        have h4 := h.2.2.2
        refine ⟨h.1, h.2.1, ?_, ?_⟩ <;> omega
      · simp [submit_attempts, hr]; omega
    | exn msg =>
      have h := ih (attempt + 1) { stats with retried := stats.retried + 1 } (calls + 1)
      have hstep : submit_attempts responses attempt (rem + 1 + 1) stats calls
          = submit_attempts responses (attempt + 1) (rem + 1)
              { stats with retried := stats.retried + 1 } (calls + 1) := by
        simp [submit_attempts, hr]
      rw [hstep]
      have h3 := h.2.2.1
      have h4 := h.2.2.2
      refine ⟨h.1, h.2.1, ?_, ?_⟩ <;> omega

/-- C4 counterexample: a submission whose every response is an explicit
non-success result (a pre-flight rejection) invokes `execute_signal` three
times under the default `max_retries = 3`, not exactly once as claimed. -/
theorem submit_trade_rejection_retried_cex :
    (submit_trade (fun _ => AttemptOutcome.result false "pre-flight validation rejected") 3
        statsZero).2.1 = 3 ∧
    ¬ (submit_trade (fun _ => AttemptOutcome.result false "pre-flight validation rejected") 3
        statsZero).2.1 = 1 := by
  refine ⟨rfl, ?_⟩
  intro h
  rw [show (submit_trade (fun _ => AttemptOutcome.result false
      "pre-flight validation rejected") 3 statsZero).2.1 = 3 from rfl] at h
  exact absurd h (by decide)

/-- C4 (amended): `ExecutionManager.submit_trade` retries on transport
failure or on any explicit non-success result — it cannot distinguish a
permanent pre-flight rejection from a transient failure.  The retry count
is bounded (`execute_signal` runs between 1 and `max_retries` times), a
first-attempt success stops the loop after exactly one invocation, and a
persistently rejected trade is attempted exactly `max_retries = 3` times. -/
theorem submit_trade_retry_behavior :
    (∀ (responses : ℕ → AttemptOutcome) (max_retries : ℕ) (stats : Stats),
      1 ≤ max_retries →
      1 ≤ (submit_trade responses max_retries stats).2.1 ∧
      (submit_trade responses max_retries stats).2.1 ≤ max_retries) ∧
    (∀ (responses : ℕ → AttemptOutcome) (max_retries : ℕ) (stats : Stats) (payload : String),
      1 ≤ max_retries → responses 0 = AttemptOutcome.result true payload →
      (submit_trade responses max_retries stats).2.1 = 1) ∧
    (∀ (stats : Stats) (msg : String),
      (submit_trade (fun _ => AttemptOutcome.result false msg) 3 stats).2.1 = 3) := by
  refine ⟨?_, ?_, ?_⟩
  · intro responses max_retries stats h
    obtain ⟨rem, rfl⟩ : ∃ rem, max_retries = rem + 1 :=
      ⟨max_retries - 1, by omega⟩
    have hs := submit_attempts_spec responses rem 0 { stats with sent := stats.sent + 1 } 0
    unfold submit_trade
    omega
  · intro responses max_retries stats payload h hresp
    obtain ⟨rem, rfl⟩ : ∃ rem, max_retries = rem + 1 :=
      ⟨max_retries - 1, by omega⟩
    cases rem <;> simp [submit_trade, submit_attempts, hresp]
  · intro stats msg
    rfl

/-- C4 witness: bounded retry at a concrete input — a first-attempt success
with `max_retries = 3` invokes `execute_signal` once (between 1 and 3). -/
theorem submit_trade_retry_behavior_witness :
    1 ≤ (submit_trade (fun _ => AttemptOutcome.result true "ok") 3 statsZero).2.1 ∧
    (submit_trade (fun _ => AttemptOutcome.result true "ok") 3 statsZero).2.1 ≤ 3 :=
  submit_trade_retry_behavior.1 (fun _ => AttemptOutcome.result true "ok") 3 statsZero
    (by decide)

/-- C10: with `max_retries ≥ 1`, every completed `submit_trade` call bumps
`sent` by exactly one and settles exactly one of `succeeded`/`failed`
(whatever the attempt outcomes), so `sent = succeeded + failed` is an
invariant of any sequence of completed calls. -/
theorem submit_trade_stats_invariant :
    (∀ (responses : ℕ → AttemptOutcome) (max_retries : ℕ) (stats : Stats),
      1 ≤ max_retries →
      (submit_trade responses max_retries stats).1.sent = stats.sent + 1 ∧
      (submit_trade responses max_retries stats).1.succeeded +
        (submit_trade responses max_retries stats).1.failed
        = stats.succeeded + stats.failed + 1) ∧
    (∀ (max_retries : ℕ) (oracles : List (ℕ → AttemptOutcome)) (stats : Stats),
      1 ≤ max_retries → stats.sent = stats.succeeded + stats.failed →
      (run_submissions max_retries oracles stats).sent
        = (run_submissions max_retries oracles stats).succeeded
          + (run_submissions max_retries oracles stats).failed) := by
  have hdelta : ∀ (responses : ℕ → AttemptOutcome) (max_retries : ℕ) (stats : Stats),
      1 ≤ max_retries →
      (submit_trade responses max_retries stats).1.sent = stats.sent + 1 ∧
      (submit_trade responses max_retries stats).1.succeeded +
        (submit_trade responses max_retries stats).1.failed
        = stats.succeeded + stats.failed + 1 := by
    intro responses max_retries stats h
    obtain ⟨rem, rfl⟩ : ∃ rem, max_retries = rem + 1 :=
      ⟨max_retries - 1, by omega⟩
    have hs := submit_attempts_spec responses rem 0 { stats with sent := stats.sent + 1 } 0
    unfold submit_trade
    exact ⟨hs.1, hs.2.1⟩
  refine ⟨hdelta, ?_⟩
  intro max_retries oracles
  induction oracles with
  | nil => intro stats _ hinv; exact hinv
  | cons o rest ih =>
    intro stats h hinv
    have hd := hdelta o max_retries stats h
    exact ih (submit_trade o max_retries stats).1 h (by omega)

/-- C10 witness: a call whose attempts all raise still settles exactly one
counter. -/
theorem submit_trade_stats_invariant_witness :
    (submit_trade (fun _ => AttemptOutcome.exn "connection refused") 3 statsZero).1.sent
      = statsZero.sent + 1 ∧
    (submit_trade (fun _ => AttemptOutcome.exn "connection refused") 3 statsZero).1.succeeded +
      (submit_trade (fun _ => AttemptOutcome.exn "connection refused") 3 statsZero).1.failed
      = statsZero.succeeded + statsZero.failed + 1 :=
  submit_trade_stats_invariant.1 (fun _ => AttemptOutcome.exn "connection refused") 3
    statsZero (by decide)

end Titan
